import Mathlib

/-!
A shallow embedding of the core of `jalloc.hpp` (a thread-local size-classed
allocator) and proofs about its specification claims.

Modelling conventions:
* Machine words (`size_t`, `uint64_t`) are `Nat` values; wherever the C++ code
  can overflow or truncate, the reduction `% 2 ^ w` is written explicitly.
* Addresses are `Nat`.  `sizeof(block_header)` is 64: the struct holds four
  8-byte fields but is declared `alignas(ALIGNMENT)` with `ALIGNMENT = 64`,
  so its size is padded to 64.
* The embedding follows the x86-64 build without AVX2/AVX-512 — the scalar
  configuration.  (The `__AVX2__` eviction scan and the generic non-x86
  eviction scan in `cache_block` reference an undeclared variable `bucket`
  and do not compile, so the scalar x86-64 build is the canonical one; there
  the min-timestamp scan is preprocessed away and `oldest_idx` stays 0.)
* `__builtin_clzll` appears only as `63 - clzll x` / `64 - clzll x`, i.e. as
  `log2 x` / `log2 x + 1`; we embed that via the fuel-based `log2u` below,
  which agrees with floor-log2 for every 64-bit value.
* All structures are per-thread; the code is embedded single-threaded, so the
  bitmap/cache compare-exchange operations always succeed.
-/

namespace Jalloc

/-! ## Constants (`jalloc.hpp`, lines 246-275) -/

def CACHE_LINE_SIZE : Nat := 64
def PG_SIZE : Nat := 4096
def TINY_LARGE_THRESHOLD : Nat := 64
def SMALL_LARGE_THRESHOLD : Nat := 256
def ALIGNMENT : Nat := CACHE_LINE_SIZE
def MAX_CACHE_SIZE : Nat := 64 * 1024 * 1024
def MIN_CACHE_BLOCK : Nat := 4 * 1024
def MAX_CACHE_BLOCK : Nat := 16 * 1024 * 1024
def CACHE_SIZE : Nat := 32
def SIZE_CLASSES : Nat := 32
def TINY_CLASSES : Nat := 8
def MAX_POOLS : Nat := 8

def SIZE_MASK : Nat := 0x0000FFFFFFFFFFFF
def CLASS_MASK : Nat := 0x00FF000000000000
def MMAP_FLAG : Nat := 1 <<< 62
def COALESCED_FLAG : Nat := 1 <<< 61
def HEADER_MAGIC : Nat := 0xDEADBEEF12345678
def MAGIC_MASK : Nat := 0xF000000000000000
def MAGIC_VALUE : Nat := 0xA000000000000000

/-- `2^64`, the wrap-around modulus of `size_t` / `uint64_t`. -/
def U64 : Nat := 2 ^ 64

/-- `sizeof(block_header)`: four 8-byte fields padded to `alignas(64)`. -/
def HEADER_BYTES : Nat := 64

/-! ## Floor log2 (embedding of `63 - __builtin_clzll x` for `x ≠ 0`) -/

def log2Aux : Nat → Nat → Nat
  | 0, _ => 0
  | fuel + 1, n => if n < 2 then 0 else 1 + log2Aux fuel (n / 2)

/-- Floor of log2, valid for every value below `2 ^ 64`. -/
def log2u (n : Nat) : Nat := log2Aux 64 n

/-! ## `get_alignment_for_size` (lines 285-292)

`1ULL << (64 - clzll (size - 1))` is `2 ^ (log2 (size-1) + 1)`, the least
power of two that is `≥ size` (the middle branch runs only for
`64 < size < 4096`). -/

def get_alignment_for_size (size : Nat) : Nat :=
  if size ≤ CACHE_LINE_SIZE then CACHE_LINE_SIZE
  else if size ≥ PG_SIZE then PG_SIZE
  else 2 ^ (log2u (size - 1) + 1)

/-! ## Size-class table (lines 277-310)

The table fields are `uint16_t`; the stored values are the computed ones
reduced `% 2 ^ 16`.  For classes ≥ 13 the nominal size `2 ^ (i+3)` no longer
fits in 16 bits and the stored `size`/`slot_size` truncate (class 13 stores
65536 % 65536 = 0, …, class 31 stores 2^34 % 2^16 = 0). -/

structure SizeClassEntry where
  size : Nat
  slot_size : Nat
  blocks : Nat
  slack : Nat
  deriving DecidableEq

/-- `(size + alignment - 1) & ~(alignment - 1)` for power-of-two alignments. -/
def alignUpPow2 (x a : Nat) : Nat := (x + a - 1) / a * a

def size_classes (i : Nat) : SizeClassEntry :=
  let size := 2 ^ (i + 3)
  let alignment := get_alignment_for_size size
  let slot := alignUpPow2 size alignment
  { size := size % 2 ^ 16
    slot_size := slot % 2 ^ 16
    blocks := PG_SIZE / slot % 2 ^ 16
    slack := (slot - size) % 2 ^ 16 }

/-! ## Block header (lines 552-700)

The packed `data` word and the `magic` word.  The physical-neighbour links
are passed separately where they matter (`try_coalesce`). -/

structure BlockHeader where
  data : Nat
  magic : Nat
  deriving DecidableEq

/-- `block_header::encode` (lines 582-589). -/
def encodeData (size cls : Nat) (is_free : Bool) : Nat :=
  (size &&& SIZE_MASK) ||| (cls % 2 ^ 8) <<< 48 |||
    (cond is_free 1 0) <<< 63 ||| MAGIC_VALUE

/-- `block_header::size()`: `data & SIZE_MASK`. -/
def hdrSize (d : Nat) : Nat := d &&& SIZE_MASK

/-- `block_header::size_class()`: `(data & CLASS_MASK) >> 48`. -/
def hdrClass (d : Nat) : Nat := (d &&& CLASS_MASK) >>> 48

/-- `block_header::is_free()`: bit 63 of `data`. -/
def hdrIsFree (d : Nat) : Bool := d.testBit 63

/-- `block_header::is_memory_mapped()`: bit 62 of `data`. -/
def hdrIsMMapped (d : Nat) : Bool := d.testBit 62

/-- `block_header::set_memory_mapped` (lines 609-613). -/
def setMMapped (d : Nat) (b : Bool) : Nat :=
  (d &&& (U64 - 1 - MMAP_FLAG)) ||| (cond b 1 0) <<< 62

/-- `block_header::set_free` (lines 603-607). -/
def setFree (d : Nat) (b : Bool) : Nat :=
  (d &&& (U64 - 1 - (1 <<< 63))) ||| (cond b 1 0) <<< 63

/-- `block_header::set_coalesced` (lines 689-693). -/
def setCoalesced (d : Nat) (b : Bool) : Nat :=
  (d &&& (U64 - 1 - COALESCED_FLAG)) ||| (cond b 1 0) <<< 61

/-- `block_header::init` (lines 565-580): for sizes ≤ 2^47 it writes the
magic and encodes; oversized requests zero the header. -/
def initHeader (size cls : Nat) (is_free : Bool) : BlockHeader :=
  if size > 2 ^ 47 then { data := 0, magic := 0 }
  else { data := encodeData size cls is_free, magic := HEADER_MAGIC }

/-- `block_header::is_valid` (lines 591-601). -/
def isValid (h : BlockHeader) : Bool :=
  h.magic == HEADER_MAGIC && (h.data &&& MAGIC_MASK) == MAGIC_VALUE &&
    hdrSize h.data ≤ 2 ^ 47 &&
    (hdrClass h.data < SIZE_CLASSES || hdrClass h.data == 255)

/-- `is_base_aligned` (lines 434-438): `(ptr & (ALIGNMENT-1)) == 0`,
written as the equivalent `% 64`. -/
def is_base_aligned (addr : Nat) : Bool := addr % ALIGNMENT == 0

/-- `block_header::is_aligned` (lines 640-656): the user pointer and the
header before it must be 64-byte aligned, the header magic must match, and
the user pointer must be aligned to the natural alignment of the stored
size.  The header argument is the 32 bytes stored at `ptr - 64`. -/
def is_aligned (ptr : Nat) (h : BlockHeader) : Bool :=
  is_base_aligned ptr && is_base_aligned (ptr - HEADER_BYTES) &&
    h.magic == HEADER_MAGIC &&
    ptr % get_alignment_for_size (hdrSize h.data) == 0

/-! ## `allocate_large` address arithmetic (lines 1379-1417)

`header_size = (sizeof(block_header) + 63) & ~63 = 64`; on both the one-page
and the multi-page path the returned user pointer is `map_base + 64` and the
header is `init(size, 255, false)` followed by `set_memory_mapped(true)`. -/

def largeHeader (size : Nat) : BlockHeader :=
  let h := initHeader size 255 false
  { h with data := setMMapped h.data true }

def largeUserPtr (mapBase : Nat) : Nat := mapBase + HEADER_BYTES

/-! ## Bitmap (lines 442-550), scalar path

8 words of 64 bits each (`words_per_bitmap = PG_SIZE / (CACHE_LINE_SIZE * 8)`).
Bit = 1 means free.  `find_free_block` skips words whose index fails the
word-granularity alignment mask, then claims the lowest set bit of the first
non-zero word (single-threaded: the compare-exchange succeeds). -/

def BITMAP_WORDS : Nat := PG_SIZE / (CACHE_LINE_SIZE * 8)

/-- `count_trailing_zeros` on a non-zero 64-bit word: `w & -w` isolates the
lowest set bit, whose index is its log2. -/
def ctz64 (w : Nat) : Nat := log2u (w &&& (U64 - w))

def findFreeAux (alignMask : Nat) : List (Nat × Nat) → Option (Nat × Nat)
  | [] => none
  | (i, w) :: rest =>
    if i &&& alignMask ≠ 0 then findFreeAux alignMask rest
    else if w ≠ 0 then some (i, ctz64 w)
    else findFreeAux alignMask rest

/-- `bitmap::find_free_block(size)`: returns the claimed block offset and the
updated words, or `none` (the `~0` sentinel). -/
def find_free_block (size : Nat) (words : List Nat) : Option (Nat × List Nat) :=
  let alignment := get_alignment_for_size size
  let alignMask := alignment / 64 - 1
  match findFreeAux alignMask words.enum with
  | some (i, bit) =>
      some (i * 64 + bit, words.set i ((words.getD i 0) &&& (U64 - 1 - 2 ^ bit)))
  | none => none

/-- `bitmap::mark_free(index)`: OR the bit back in. -/
def mark_free (index : Nat) (words : List Nat) : List Nat :=
  words.set (index / 64) ((words.getD (index / 64) 0) ||| 1 <<< (index % 64))

/-! ## Pool (lines 702-731) and the small-allocation path

A `pool` is one page: a 64-byte bitmap followed by `memory`.  `pool::allocate`
returns `memory + index * sc.slot_size` (no bounds check).  The pool base is
page-aligned (`alignas(PG_SIZE)`, allocated with `align_val_t{PG_SIZE}`). -/

structure PoolSt where
  base : Nat
  words : List Nat
  deriving DecidableEq

def freshPoolWords : List Nat := List.replicate BITMAP_WORDS (U64 - 1)

/-- `pool::allocate(sc)` (lines 709-718): note it passes the truncated
16-bit `sc.size` to the bitmap and multiplies by the truncated
`sc.slot_size`. -/
def poolAllocate (sc : SizeClassEntry) (p : PoolSt) : Option (Nat × PoolSt) :=
  match find_free_block sc.size p.words with
  | some (idx, words') =>
      some (p.base + 64 + idx * sc.slot_size, { p with words := words' })
  | none => none

/-- The small path of `Jallocator::allocate` for `65 ≤ n ≤ 256` when the
thread cache is empty (its permanent state, since nothing is ever inserted)
and the pool manager already owns one pool: class `(n-1) >> 3`, slot from the
pool, header written at the slot base, user pointer at `slot + 64`
(lines 1349-1354, 1481-1491). -/
def allocateSmallNoCache (n : Nat) (p : PoolSt) : Option (Nat × PoolSt) :=
  let cls := (n - 1) >>> 3
  match poolAllocate (size_classes cls) p with
  | some (slot, p') => some (slot + HEADER_BYTES, p')
  | none => none

/-! ## `try_coalesce` (lines 658-687)

Arguments: the packed data words of the previous and next physical
neighbours (as `Option`, `none` = null link) and of the block itself.
Returns whether any merge happened, the block's updated data word and the
previous neighbour's updated data word. -/

def tryCoalesce (prevD : Option Nat) (selfD : Nat) (nextD : Option Nat) :
    Bool × Nat × Option Nat :=
  if hdrIsMMapped selfD || hdrClass selfD < TINY_CLASSES then
    (false, selfD, prevD)
  else
    let step1 : Bool × Nat :=
      match nextD with
      | some nd =>
        if hdrIsFree nd then
          let combined := hdrSize selfD + hdrSize nd + HEADER_BYTES
          (true, setCoalesced (encodeData combined (hdrClass selfD) true) true)
        else (false, selfD)
      | none => (false, selfD)
    let step2 : Bool × Option Nat :=
      match prevD with
      | some pd =>
        if hdrIsFree pd then
          let combined := hdrSize step1.2 + hdrSize pd + HEADER_BYTES
          (true, some (setCoalesced (encodeData combined (hdrClass pd) true) true))
        else (false, prevD)
      | none => (false, prevD)
    (step1.1 || step2.1, step1.2, step2.2)

/-! ## Large-block cache (lines 996-1273)

State: 8 buckets of 4 entries plus the global `total_cached` counter; an
entry holds an optional pointer, a size and a timestamp.  `size_t`
arithmetic on `total_cached` is taken `% 2 ^ 64` so that the wrap-around of
`fetch_sub` is represented faithfully. -/

structure CacheEntry where
  ptr : Option Nat
  size : Nat
  last_use : Nat
  deriving DecidableEq

structure SizeBucket where
  count : Nat
  entries : Fin 4 → CacheEntry

structure LBCache where
  buckets : Fin 8 → SizeBucket
  total_cached : Nat

def emptyEntry : CacheEntry := { ptr := none, size := 0, last_use := 0 }

def emptyCache : LBCache :=
  { buckets := fun _ => { count := 0, entries := fun _ => emptyEntry }
    total_cached := 0 }

/-- `get_bucket_index` (lines 1063-1080), x86-64 path:
`(63 - clzll (size > MIN ? size - 1 : MIN)) - 11`. -/
def get_bucket_index (size : Nat) : Nat :=
  log2u (if size > MIN_CACHE_BLOCK then size - 1 else MIN_CACHE_BLOCK) - 11

/-- The insertion attempt of `cache_block` (lines 1136-1149): if the bucket
count is below 4 and the compare-exchange on `entries[count]` finds a null
pointer, the fresh entry is written there and the count incremented;
otherwise the caller falls through to eviction. -/
def bucketInsert (b : SizeBucket) (fresh : CacheEntry) : Option SizeBucket :=
  if hc : b.count < 4 then
    if (b.entries ⟨b.count, hc⟩).ptr = none then
      some ⟨b.count + 1, Function.update b.entries ⟨b.count, hc⟩ fresh⟩
    else none
  else none

/-- The eviction attempt of `cache_block` (lines 1151-1246).  In the scalar
x86-64 build the min-timestamp scan is compiled out, so `oldest_idx` keeps
its initial value 0: the victim is always entry 0.  The replacement happens
when the victim holds a pointer and the incoming size is within the `1.25 ×`
tolerance of the victim's size (`size ≤ oldest.size * 1.25`, exactly:
`4 * size ≤ 5 * oldest.size`).  Returns the updated bucket and the evicted
size. -/
def bucketEvict (b : SizeBucket) (fresh : CacheEntry) (size : Nat) :
    Option (SizeBucket × Nat) :=
  match (b.entries 0).ptr with
  | some _ =>
      if size * 4 ≤ (b.entries 0).size * 5 then
        some (⟨b.count, Function.update b.entries 0 fresh⟩, (b.entries 0).size)
      else none
  | none => none

/-- `cache_block` (lines 1121-1247).  Bounds check, bucket index check,
64 MiB admission check; then the insertion attempt, then eviction.  The
`size_t` counter updates are taken `% 2 ^ 64` (`fetch_add`/`fetch_sub`).
Returns the `accepted?` flag and the new state. -/
def cache_block (st : LBCache) (ptr size now : Nat) : Bool × LBCache :=
  if size < MIN_CACHE_BLOCK || size > MAX_CACHE_BLOCK then (false, st)
  else if hb : get_bucket_index size < 8 then
    if st.total_cached + size > MAX_CACHE_SIZE then (false, st)
    else
      match bucketInsert (st.buckets ⟨get_bucket_index size, hb⟩)
          ⟨some ptr, size, now⟩ with
      | some b' =>
          (true, ⟨Function.update st.buckets ⟨get_bucket_index size, hb⟩ b',
                  (st.total_cached + size) % U64⟩)
      | none =>
          match bucketEvict (st.buckets ⟨get_bucket_index size, hb⟩)
              ⟨some ptr, size, now⟩ size with
          | some (b', oldsz) =>
              (true, ⟨Function.update st.buckets ⟨get_bucket_index size, hb⟩ b',
                      ((st.total_cached + U64 - oldsz) % U64 + size) % U64⟩)
          | none => (false, st)
  else (false, st)

/-- The scan of `get_cached_block` (lines 1101-1117): the first index
`i < count` whose entry is present, at least as big as the request and
within the `1.25 ×` tolerance (`entry.size ≤ size * 1.25`, exactly:
`4 * entry.size ≤ 5 * size`). -/
def getScan (b : SizeBucket) (size : Nat) : Option (Fin 4) :=
  (List.finRange 4).find? fun i =>
    decide (i.val < b.count) && (b.entries i).ptr.isSome &&
      decide (size ≤ (b.entries i).size) && decide ((b.entries i).size * 4 ≤ size * 5)

/-- `get_cached_block` (lines 1082-1119): claim the first matching entry
(pointer nulled, count and counter decremented). -/
def get_cached_block (st : LBCache) (size : Nat) : Option Nat × LBCache :=
  if size < MIN_CACHE_BLOCK || size > MAX_CACHE_BLOCK then (none, st)
  else if hb : get_bucket_index size < 8 then
    match getScan (st.buckets ⟨get_bucket_index size, hb⟩) size with
    | some i =>
        (((st.buckets ⟨get_bucket_index size, hb⟩).entries i).ptr,
         ⟨Function.update st.buckets ⟨get_bucket_index size, hb⟩
            ⟨(st.buckets ⟨get_bucket_index size, hb⟩).count - 1,
             Function.update (st.buckets ⟨get_bucket_index size, hb⟩).entries i
               ⟨none, ((st.buckets ⟨get_bucket_index size, hb⟩).entries i).size,
                ((st.buckets ⟨get_bucket_index size, hb⟩).entries i).last_use⟩⟩,
          (st.total_cached + U64 -
            ((st.buckets ⟨get_bucket_index size, hb⟩).entries i).size) % U64⟩)
    | none => (none, st)
  else (none, st)

/-- `clear` (lines 1249-1272): for each bucket only the entries at indices
below `count` are exchanged to null (the region is unmapped externally);
entries at or above `count` keep their pointer.  Count and the global
counter are reset. -/
def clearBucket (b : SizeBucket) : SizeBucket :=
  { count := 0
    entries := fun i =>
      if i.val < b.count then { b.entries i with ptr := none } else b.entries i }

def clearCache (st : LBCache) : LBCache :=
  { buckets := fun j => clearBucket (st.buckets j), total_cached := 0 }

/-! ## `Jallocator::deallocate` (lines 1497-1573)

The observable action of one `deallocate` call, as a function of the pointer
value, the header stored at `ptr - 64`, and the per-thread state.  The
thread-cache insertion (`thread_cache_.put`) succeeds iff the class count is
below `CACHE_SIZE`. -/

inductive DeallocAction where
  | noop
  | tinyFree
  | largeCached
  | largeUnmapped
  | largeFreed
  | cachePut
  | poolFree
  deriving DecidableEq

structure ThreadSt where
  tinyPresent : Nat → Bool
  tcCount : Nat → Nat
  cache : LBCache
  clock : Nat

/-- `(reinterpret_cast<uintptr_t>(ptr) & ~(PG_SIZE-1)) == 0`: the pointer's
page number is zero, i.e. the bits above the page offset vanish. -/
def pageGuardHits (ptr : Nat) : Bool := ptr &&& (U64 - PG_SIZE) == 0

def deallocate (ptr : Nat) (h : BlockHeader) (st : ThreadSt) :
    DeallocAction × ThreadSt :=
  if ptr = 0 then (.noop, st)
  else if ¬ is_aligned ptr h then (.noop, st)
  else if ¬ isValid h then (.noop, st)
  else if pageGuardHits ptr then (.noop, st)
  else
    let cls := hdrClass h.data
    if cls ≥ SIZE_CLASSES ∧ cls ≠ 255 then (.noop, st)
    else if cls < TINY_CLASSES then
      if hdrIsFree h.data then (.noop, st)
      else if st.tinyPresent cls then (.tinyFree, st)
      else (.noop, st)
    else if cls = 255 then
      match cache_block st.cache ptr (hdrSize h.data) st.clock with
      | (true, c') => (.largeCached, { st with cache := c', clock := st.clock + 1 })
      | (false, _) =>
          if hdrIsMMapped h.data then (.largeUnmapped, st) else (.largeFreed, st)
    else if hdrIsFree h.data then (.noop, st)
    else if st.tcCount cls < CACHE_SIZE then
      (.cachePut, { st with tcCount := fun c => if c = cls then st.tcCount c + 1 else st.tcCount c })
    else (.poolFree, st)

/-! ## `Jallocator::reallocate` (lines 1575-1697)

Only the routing decision is modelled; the copy loops do not affect which
pointer is returned. -/

inductive ReallocDecision where
  | allocNew
  | fail
  | deallocNull
  | inPlace
  | remapTry
  | moved
  deriving DecidableEq

def reallocDecision (ptr : Nat) (h : BlockHeader) (newSize : Nat) :
    ReallocDecision :=
  if ptr = 0 then .allocNew
  else if ¬ is_aligned ptr h then .fail
  else if newSize = 0 then .deallocNull
  else if ¬ isValid h then .fail
  else if hdrSize h.data > 2 ^ 47 then .fail
  else
    let oldClass := hdrClass h.data
    let fallThrough : ReallocDecision :=
      if hdrIsMMapped h.data then .remapTry else .moved
    if oldClass < TINY_CLASSES then
      if newSize ≤ (oldClass + 1) <<< 3 then .inPlace else fallThrough
    else if oldClass < SIZE_CLASSES then
      if newSize ≤ (size_classes oldClass).size then .inPlace else fallThrough
    else fallThrough

/-! ## `Jallocator::cleanup` (lines 1850-1864)

Clears the large-block cache and the thread cache and deletes the tiny
pools.  The pool manager (`pool_manager_`) is not touched: its pools are
freed only by `~pool_manager` at thread exit. -/

structure CleanupSt where
  tcCount : Fin 32 → Nat
  cache : LBCache
  tinyPresent : Fin 8 → Bool
  poolCount : Fin 32 → Nat

def cleanup (s : CleanupSt) : CleanupSt :=
  { tcCount := fun _ => 0
    cache := clearCache s.cache
    tinyPresent := fun _ => false
    poolCount := s.poolCount }

/-! ## `Jallocator::callocate` (lines 1699-1848), Linux scalar build

`callocate(num, size)` rejects zero arguments, rejects multiplication
overflow (`num > SIZE_MAX / size`), allocates `num * size` bytes and zeroes
them.  The allocator itself is passed as an oracle.

For the zeroing we record which byte offsets of the returned region each
branch covers:
* `total ≤ 32`: a single `memset` over `[0, total)`;
* Linux path for `total ≥ 4096`: zero `[0, pre)`, drop the page-aligned
  interior `[pre, pre + mid)` with `madvise(MADV_DONTNEED)` (anonymous
  private pages read back as zeroes) and zero `[pre + mid, total)`; if the
  interior is empty or `madvise` fails, fall through;
* fall-through (also `33 ≤ total < 4096`): the scalar zeroing loop —
  `memset` of the first `addr & 7` bytes, `(total - a) >> 3` eight-byte
  stores, `memset` of the remaining `(total - a) & 7` bytes. -/

def callocResult (num size : Nat) (alloc : Nat → Option Nat) : Option Nat :=
  if num = 0 || size = 0 then none
  else if num > (U64 - 1) / size then none
  else alloc (num * size)

def fullZeroCovers (addr total off : Nat) : Bool :=
  let a := addr % 8
  let blocks := (total - a) >>> 3
  let remain := (total - a) % 8
  decide (off < a) || (decide (a ≤ off) && decide (off < a + blocks * 8)) ||
    (decide (a + blocks * 8 ≤ off) && decide (off < a + blocks * 8 + remain))

/-- `page_aligned - ptr`: the bytes before the first page boundary
(`page_aligned = (ptr + 4095) & ~4095`). -/
def madvPre (ptr : Nat) : Nat := ((ptr + 4095) &&& (U64 - 4096)) - ptr

/-- `suffix = (total_size - prefix) & 4095`. -/
def madvSuf (ptr total : Nat) : Nat := (total - madvPre ptr) &&& 4095

/-- `middle = total_size - prefix - suffix`. -/
def madvMid (ptr total : Nat) : Nat := total - madvPre ptr - madvSuf ptr total

def zeroPlanCovers (ptr total : Nat) (madvOk : Bool) (off : Nat) : Bool :=
  if total ≤ 32 then decide (off < total)
  else if 4096 ≤ total then
    if madvMid ptr total ≠ 0 && madvOk then
      decide (off < madvPre ptr) ||
        (decide (madvPre ptr ≤ off) &&
          decide (off < madvPre ptr + madvMid ptr total)) ||
        (decide (madvPre ptr + madvMid ptr total ≤ off) &&
          decide (off < madvPre ptr + madvMid ptr total + madvSuf ptr total))
    else fullZeroCovers ptr total off
  else fullZeroCovers ptr total off

/-! ## Cached-bytes accounting for the large-block cache

`entryCounted` is the contribution of one entry to the bytes the cache
currently accounts for: entries are accounted while they are present and
sit below the bucket's `count` (the region `get_cached_block` scans and
`clear` nulls).  `WF` is the state invariant maintained by the cache
operations; it pins `total_cached` to at most 64 MiB and above the
accounted bytes, so no `fetch_sub` can wrap. -/

def entryCounted (b : SizeBucket) (i : Fin 4) : Nat :=
  if i.val < b.count ∧ (b.entries i).ptr ≠ none then (b.entries i).size else 0

def bucketCounted (b : SizeBucket) : Nat := ∑ i : Fin 4, entryCounted b i

def cachedBytes (st : LBCache) : Nat := ∑ j : Fin 8, bucketCounted (st.buckets j)

def WF (st : LBCache) : Prop :=
  cachedBytes st ≤ st.total_cached ∧
  st.total_cached ≤ MAX_CACHE_SIZE ∧
  (∀ j, (st.buckets j).count ≤ 4) ∧
  (∀ j, ((st.buckets j).entries 0).ptr ≠ none → 1 ≤ (st.buckets j).count)

instance : DecidablePred WF := fun st => by
  unfold WF
  infer_instance

/-- A state used to instantiate theorems with hypotheses at concrete
inputs: all tiny pools present, empty thread cache, empty large cache. -/
def baseThreadSt : ThreadSt :=
  { tinyPresent := fun _ => true
    tcCount := fun _ => 0
    cache := emptyCache
    clock := 0 }

/-- A fresh pool for size-class requests, page-aligned at address 16384. -/
def pool16k : PoolSt := { base := 16384, words := freshPoolWords }

/-- The header `allocate(48)` writes: `init(48, 5, false)` at the tiny slot
base (class `(48-1) >> 3 = 5`). -/
def hdr48 : BlockHeader := { data := encodeData 48 5 false, magic := HEADER_MAGIC }

/-- A validated class-255 header with the free flag set and the
memory-mapped flag clear (the only flag pattern `is_valid` accepts, since
the `0xA` magic nibble overlaps bits 63-60). -/
def hdr255Free : BlockHeader := { data := encodeData 4096 255 true, magic := HEADER_MAGIC }

/-- A cleanup-state with one small/medium pool alive in the pool manager
for class 8 (reachable: a single `allocate(300)` grows class 8 by one pool
with `used_blocks = 1`). -/
def cleanupSt0 : CleanupSt :=
  { tcCount := fun _ => 0
    cache := emptyCache
    tinyPresent := fun _ => false
    poolCount := fun i => if i.val = 8 then 1 else 0 }

/-- The free flag of an optional physical neighbour (`none` = null link). -/
def optFree : Option Nat → Bool
  | some d => hdrIsFree d
  | none => false

/-! # Claim theorems -/

/-- C1: the claim states that every successful `allocate(n)`, `1 ≤ n ≤ 2^47`,
returns a cache-line-aligned user pointer on which `block_header::is_aligned`
holds, on every tier.  The large tier refutes the `is_aligned` part: a
successful `allocate(4096)` maps a page at a page-aligned base (here 65536)
and returns `base + 64` with a class-255 header of size 4096; the pointer is
64-byte aligned, but `is_aligned` additionally demands alignment to
`get_alignment_for_size(4096) = 4096`, and `(base + 64) % 4096 = 64 ≠ 0`.
So the code's own guard rejects the code's own large allocations (making
`deallocate`/`reallocate` no-ops on them). -/
theorem c1_allocate_large_fails_is_aligned :
    largeUserPtr 65536 % CACHE_LINE_SIZE = 0 ∧
    hdrSize (largeHeader 4096).data = 4096 ∧
    is_aligned (largeUserPtr 65536) (largeHeader 4096) = false := by decide

/-- C2: the claim states that two successful allocates by one thread never
return the same user pointer without an intervening deallocate, including
249-256-byte requests of size class 31.  Refuted: `size_classes[31]` stores
`slot_size = 2^34 mod 2^16 = 0`, so `pool::allocate` returns
`memory + index * 0` — the same slot — for every bitmap index.  Two
consecutive `allocate(256)` calls on a fresh pool at base 16384 (thread
cache empty, which is its permanent state) both return user pointer
16512. -/
theorem c2_allocate_small_class31_returns_same_pointer :
    (allocateSmallNoCache 256 pool16k).map Prod.fst = some 16512 ∧
    ((allocateSmallNoCache 256 pool16k).bind fun r =>
      (allocateSmallNoCache 256 r.2).map Prod.fst) = some 16512 ∧
    (size_classes 31).slot_size = 0 := by decide

/-- C4: the claim states that deallocating a successfully allocated large
block of size in [4 KiB, 16 MiB] admits it to the large-block cache so that
an equal-sized allocate returns the same pointer.  Refuted at 8 MiB: the
deallocate of the mapped block (user pointer `base + 64`, here base 131072)
is a no-op because `is_aligned` fails, and even a direct
`cache_block(p, 8 MiB)` is rejected because `get_bucket_index(8 MiB) = 11`
is outside the 8 buckets; the cache never holds the block, so the second
`allocate(8 MiB)` maps fresh memory. -/
theorem c4_large_cache_round_trip_fails :
    (deallocate (largeUserPtr 131072) (largeHeader (8 * 1024 * 1024))
        baseThreadSt).1 = DeallocAction.noop ∧
    get_bucket_index (8 * 1024 * 1024) = 11 ∧
    (cache_block emptyCache (largeUserPtr 131072) (8 * 1024 * 1024) 0).1 = false := by
  decide

/-- C5: the claim states that `deallocate(p)` is a no-op whenever `p` equals
its owning page's base.  Refuted: the code tests
`(ptr & ~(PG_SIZE-1)) == 0`, which holds only for pointers inside the first
page of the address space, not for page-aligned pointers.  The page-base
pointer 12288 with a validated class-255 header is not rejected: the call
proceeds and admits the block to the large cache (a state change, not a
no-op). -/
theorem c5_page_base_pointer_not_rejected :
    12288 % PG_SIZE = 0 ∧
    pageGuardHits 12288 = false ∧
    (deallocate 12288 hdr255Free baseThreadSt).1 = DeallocAction.largeCached ∧
    DeallocAction.largeCached ≠ DeallocAction.noop := by decide

/-- C3 counterexample: the claim states that for every validated pointer
whose header already has the free flag set, `deallocate` is a no-op — for
every class including 255.  Refuted for class 255: the large path never
consults the free flag.  The pointer 8192 carries a validated class-255
header with the free flag set, yet `deallocate` admits the block to the
large cache instead of no-opping. -/
theorem c3_large_path_ignores_free_flag :
    is_aligned 8192 hdr255Free = true ∧
    isValid hdr255Free = true ∧
    hdrIsFree hdr255Free.data = true ∧
    (deallocate 8192 hdr255Free baseThreadSt).1 = DeallocAction.largeCached ∧
    DeallocAction.largeCached ≠ DeallocAction.noop := by decide

/-- C3 (amended): for every pointer that passes all of `deallocate`'s guards
(non-null, `is_aligned`, `is_valid`, not caught by the page test) and whose
header has the free flag set, `deallocate` is a no-op — provided the size
class is below 32.  (For class 255 the free flag is not consulted; see the
counterexample.) -/
theorem c3_free_flag_noop_below_class_255 (ptr : Nat) (h : BlockHeader)
    (st : ThreadSt) (hp : ptr ≠ 0) (hal : is_aligned ptr h = true)
    (hv : isValid h = true) (hg : pageGuardHits ptr = false)
    (hf : hdrIsFree h.data = true) (hc : hdrClass h.data < SIZE_CLASSES) :
    deallocate ptr h st = (DeallocAction.noop, st) := by
  have h255 : hdrClass h.data ≠ 255 := by
    simp only [SIZE_CLASSES] at hc; omega
  have hno : ¬(hdrClass h.data ≥ SIZE_CLASSES ∧ hdrClass h.data ≠ 255) :=
    fun hx => absurd hc (by omega)
  unfold deallocate
  rw [if_neg hp, if_neg (not_not_intro hal), if_neg (not_not_intro hv),
    if_neg (by simp [hg]), if_neg hno]
  by_cases ht : hdrClass h.data < TINY_CLASSES
  · rw [if_pos ht, if_pos hf]
  · rw [if_neg ht, if_neg h255, if_pos hf]

/-- Witness for C3's theorem: a validated free tiny-class-0 header at user
pointer 8256 makes `deallocate` a no-op. -/
theorem c3_free_flag_noop_below_class_255_witness :
    deallocate 8256 { data := encodeData 8 0 true, magic := HEADER_MAGIC }
      baseThreadSt = (DeallocAction.noop, baseThreadSt) :=
  c3_free_flag_noop_below_class_255 8256 _ baseThreadSt (by decide) (by decide)
    (by decide) (by decide) (by decide) (by decide)

/-- C6 counterexample: the claim states that `try_coalesce` never merges
with a neighbour that is tiny (or memory-mapped).  Refuted: a free medium
block (class 8) whose next physical neighbour is a free tiny block
(class 0) does merge — the tiny/mmap test is applied to the block itself,
never to the neighbour. -/
theorem c6_merges_with_free_tiny_neighbor :
    hdrClass (encodeData 8 0 true) < TINY_CLASSES ∧
    hdrIsFree (encodeData 8 0 true) = true ∧
    (tryCoalesce none (encodeData 2048 8 true) (some (encodeData 8 0 true))).1
      = true := by decide

/-- C6 (amended): `try_coalesce` returns false when the block itself is
memory-mapped or tiny; otherwise it reports a merge exactly when some
physical neighbour exists and is free — the neighbour's own class and
memory-mapped flag are never examined. -/
theorem c6_try_coalesce_guard_is_on_self (prevD : Option Nat) (selfD : Nat)
    (nextD_ : Option Nat) :
    (tryCoalesce prevD selfD nextD_).1 =
      ((!(hdrIsMMapped selfD || decide (hdrClass selfD < TINY_CLASSES))) &&
        (optFree nextD_ || optFree prevD)) := by
  by_cases hm : hdrIsMMapped selfD = true
  · simp [tryCoalesce, hm]
  · by_cases hc : hdrClass selfD < TINY_CLASSES
    · simp [tryCoalesce, hm, hc]
    · cases prevD <;> cases nextD_ <;>
        simp [tryCoalesce, optFree, hm, hc] <;> split_ifs <;> simp_all

/-- C7 counterexample: the claim states `reallocate(allocate(48), 56)`
returns the pointer unchanged.  Refuted: `allocate(48)` produces a class-5
header (nominal size 48) and the in-place test is `new_size ≤ (5+1)·8 = 48`,
so `reallocate(p, 56)` takes the move path (allocate-copy-deallocate), not
the in-place path.  (The slot could hold 64 payload bytes, but the code
compares against the nominal class size.) -/
theorem c7_reallocate_48_to_56_moves :
    hdrClass hdr48.data = 5 ∧
    (hdrClass hdr48.data + 1) <<< 3 = 48 ∧
    reallocDecision 20608 hdr48 56 = ReallocDecision.moved ∧
    ReallocDecision.moved ≠ ReallocDecision.inPlace := by decide

/-- C7 (amended): `reallocate(p, n)` returns `p` unchanged whenever `p`
passes validation, its class is tiny and `n` is at most the nominal class
size `(class + 1) · 8` — not the slot capacity.  (So 48 → 56 moves, while
48 → 48 stays.) -/
theorem c7_realloc_in_place_within_nominal (ptr : Nat) (h : BlockHeader)
    (n : Nat) (hp : ptr ≠ 0) (hal : is_aligned ptr h = true)
    (hv : isValid h = true) (hn : 1 ≤ n) (hc : hdrClass h.data < TINY_CLASSES)
    (hcap : n ≤ (hdrClass h.data + 1) <<< 3) :
    reallocDecision ptr h n = ReallocDecision.inPlace := by
  have hv' := hv
  simp only [isValid, Bool.and_eq_true, beq_iff_eq, decide_eq_true_eq,
    Bool.or_eq_true] at hv'
  have hsz : ¬ hdrSize h.data > 2 ^ 47 := by omega
  unfold reallocDecision
  rw [if_neg hp, if_neg (not_not_intro hal), if_neg (by omega : ¬ n = 0),
    if_neg (not_not_intro hv), if_neg hsz, if_pos hc, if_pos hcap]

/-- Witness for C7's theorem: `reallocate(allocate(48), 48)` stays in
place. -/
theorem c7_realloc_in_place_within_nominal_witness :
    reallocDecision 20608 hdr48 48 = ReallocDecision.inPlace :=
  c7_realloc_in_place_within_nominal 20608 hdr48 48 (by decide) (by decide)
    (by decide) (by decide) (by decide) (by decide)

/-- C8 counterexample: the claim states that `cleanup()` also releases the
pool manager's per-class pools.  Refuted: from a state with one live class-8
pool (reachable by a single `allocate(300)`), `cleanup` leaves the pool
manager untouched — the pool count for class 8 is still 1. -/
theorem c8_cleanup_leaves_pool_manager_pools :
    (cleanup cleanupSt0).poolCount ⟨8, by norm_num⟩ = 1 ∧ (1 : Nat) ≠ 0 := by
  decide

/-- C8 (amended): `cleanup()` empties the thread cache, resets the
large-block cache (count and byte counter to zero), and deletes all tiny
pools, but leaves the pool manager's pools untouched — they are released
only by `~pool_manager` at thread exit. -/
theorem c8_cleanup_effect (s : CleanupSt) :
    (cleanup s).tcCount = (fun _ => 0) ∧
    (cleanup s).tinyPresent = (fun _ => false) ∧
    (cleanup s).cache.total_cached = 0 ∧
    (∀ j, ((cleanup s).cache.buckets j).count = 0) ∧
    (cleanup s).poolCount = s.poolCount :=
  ⟨rfl, rfl, rfl, fun _ => rfl, rfl⟩

/-- The scalar zeroing loop covers every offset below `total` (its three
pieces — head `memset`, 8-byte stores, tail `memset` — tile `[0, total)`). -/
theorem fullZero_covers_all (addr total off : Nat) (h33 : 33 ≤ total)
    (hoff : off < total) : fullZeroCovers addr total off = true := by
  unfold fullZeroCovers
  simp only [Nat.shiftRight_eq_div_pow, Bool.or_eq_true, Bool.and_eq_true,
    decide_eq_true_eq]
  have ha : addr % 8 < 8 := Nat.mod_lt _ (by norm_num)
  have hdm := Nat.div_add_mod (total - addr % 8) 8
  omega

/-- The prefix before the first page boundary is under a page long. -/
theorem madvPre_le (ptr : Nat) : madvPre ptr ≤ 4095 := by
  unfold madvPre
  have h := Nat.and_le_left (n := ptr + 4095) (m := U64 - 4096)
  omega

/-- The suffix never exceeds what remains after the prefix. -/
theorem madvSuf_le (ptr total : Nat) : madvSuf ptr total ≤ total - madvPre ptr :=
  Nat.and_le_left

/-- C9: `callocate(1, n)` returns `n` zero bytes.  The call fails exactly on
`n = 0` (the explicit zero-size guard; `allocate(0)` would fail anyway) or
when the underlying `allocate` fails — the `k·n` overflow check never fires
for `k = 1`.  On success, every byte offset below `n` is covered by the
zeroing plan, on each of its branches: the small `memset`, the Linux
madvise decomposition (prefix-zero, page-dropped interior, suffix-zero) and
the scalar fall-through loop. -/
theorem c9_callocate_zeroes (alloc : Nat → Option Nat) (n off p : Nat)
    (madvOk : Bool) (hn : n < U64) :
    (callocResult 1 n alloc = none ↔ n = 0 ∨ alloc n = none) ∧
    (callocResult 1 n alloc = some p → off < n →
      zeroPlanCovers p n madvOk off = true) := by
  have hguard : ∀ _ : ¬ n = 0, ¬ (1 > (U64 - 1) / n) := by
    intro h0
    have h1 : 1 ≤ (U64 - 1) / n :=
      (Nat.one_le_div_iff (Nat.pos_of_ne_zero h0)).2 (by unfold U64 at hn ⊢; omega)
    omega
  constructor
  · by_cases h0 : n = 0
    · subst h0; simp [callocResult]
    · simp only [callocResult, decide_eq_true_eq, Bool.or_eq_true]
      rw [if_neg (by simp [h0]), if_neg (hguard h0), one_mul]
      simp [h0]
  · intro hsome hoff
    unfold zeroPlanCovers
    split_ifs with h1 h2 h3
    · simpa using hoff
    · have hpre := madvPre_le p
      have hsuf := madvSuf_le p n
      have hmid : madvMid p n = n - madvPre p - madvSuf p n := rfl
      simp only [Bool.or_eq_true, Bool.and_eq_true, decide_eq_true_eq]
      omega
    · exact fullZero_covers_all p n off (by omega) hoff
    · exact fullZero_covers_all p n off (by omega) hoff

/-- Witness for C9's theorem: `callocate(1, 5000)` through an allocator
returning pointer 64 zeroes offset 4500. -/
theorem c9_callocate_zeroes_witness :
    zeroPlanCovers 64 5000 true 4500 = true :=
  (c9_callocate_zeroes (fun _ => some 64) 5000 4500 64 true (by decide)).2
    (by decide) (by decide)

theorem sum_update_add {n : Nat} (f : Fin n → Nat) (j : Fin n) (v : Nat) :
    (∑ i, Function.update f j v i) + f j = (∑ i, f i) + v := by
  rw [Finset.sum_update_of_mem (Finset.mem_univ j),
    Finset.sum_eq_sum_diff_singleton_add (Finset.mem_univ j) f]
  omega

theorem entry_le_bucketCounted (b : SizeBucket) (i : Fin 4) :
    entryCounted b i ≤ bucketCounted b :=
  Finset.single_le_sum (f := fun k => entryCounted b k)
    (fun _ _ => Nat.zero_le _) (Finset.mem_univ i)

theorem bucket_le_cachedBytes (st : LBCache) (j : Fin 8) :
    bucketCounted (st.buckets j) ≤ cachedBytes st :=
  Finset.single_le_sum (f := fun k => bucketCounted (st.buckets k))
    (fun _ _ => Nat.zero_le _) (Finset.mem_univ j)

theorem bucketCounted_insert (b : SizeBucket) (hc : b.count < 4)
    (e : CacheEntry) (he : e.ptr ≠ none) :
    bucketCounted ⟨b.count + 1, Function.update b.entries ⟨b.count, hc⟩ e⟩ =
      bucketCounted b + e.size := by
  have hpt : ∀ j, entryCounted ⟨b.count + 1,
      Function.update b.entries ⟨b.count, hc⟩ e⟩ j =
      Function.update (entryCounted b) ⟨b.count, hc⟩ e.size j := by
    intro j
    by_cases hj : j = (⟨b.count, hc⟩ : Fin 4)
    · subst hj
      simp [entryCounted, he]
    · rw [Function.update_noteq hj]
      have hne : j.val ≠ b.count := fun h => hj (Fin.ext h)
      unfold entryCounted
      dsimp only
      rw [Function.update_noteq hj]
      by_cases hlt : j.val < b.count
      · have hlt1 : j.val < b.count + 1 := by omega
        simp [hlt, hlt1]
      · have hlt1 : ¬ j.val < b.count + 1 := by omega
        simp [hlt, hlt1]
  have h0 : entryCounted b ⟨b.count, hc⟩ = 0 := by
    simp [entryCounted]
  have hsum := sum_update_add (entryCounted b) ⟨b.count, hc⟩ e.size
  have hcongr : bucketCounted ⟨b.count + 1,
      Function.update b.entries ⟨b.count, hc⟩ e⟩ =
      ∑ i, Function.update (entryCounted b) ⟨b.count, hc⟩ e.size i :=
    Finset.sum_congr rfl (fun j _ => hpt j)
  have hbc : bucketCounted b = ∑ i, entryCounted b i := rfl
  omega

theorem bucketCounted_evict (b : SizeBucket) (h1 : 1 ≤ b.count)
    (hsome : (b.entries 0).ptr ≠ none) (e : CacheEntry) (he : e.ptr ≠ none) :
    bucketCounted ⟨b.count, Function.update b.entries 0 e⟩ +
      (b.entries 0).size = bucketCounted b + e.size := by
  have hz : (0 : Nat) < b.count := by omega
  have hpt : ∀ j, entryCounted ⟨b.count, Function.update b.entries 0 e⟩ j =
      Function.update (entryCounted b) 0 e.size j := by
    intro j
    by_cases hj : j = (0 : Fin 4)
    · subst hj
      simp [entryCounted, he, hz]
    · rw [Function.update_noteq hj]
      unfold entryCounted
      dsimp only
      rw [Function.update_noteq hj]
  have h0 : entryCounted b 0 = (b.entries 0).size := by
    simp [entryCounted, hsome, hz]
  have hsum := sum_update_add (entryCounted b) 0 e.size
  have hcongr : bucketCounted ⟨b.count, Function.update b.entries 0 e⟩ =
      ∑ i, Function.update (entryCounted b) 0 e.size i :=
    Finset.sum_congr rfl (fun j _ => hpt j)
  have hbc : bucketCounted b = ∑ i, entryCounted b i := rfl
  omega

theorem bucketCounted_get (b : SizeBucket) (i : Fin 4) (hi : i.val < b.count)
    (hsome : (b.entries i).ptr ≠ none) :
    bucketCounted ⟨b.count - 1,
        Function.update b.entries i ⟨none, (b.entries i).size, (b.entries i).last_use⟩⟩
      + (b.entries i).size ≤ bucketCounted b := by
  have hpt : ∀ j, entryCounted ⟨b.count - 1,
      Function.update b.entries i ⟨none, (b.entries i).size, (b.entries i).last_use⟩⟩ j
      ≤ Function.update (entryCounted b) i 0 j := by
    intro j
    by_cases hj : j = i
    · subst hj
      simp [entryCounted]
    · rw [Function.update_noteq hj]
      unfold entryCounted
      dsimp only
      rw [Function.update_noteq hj]
      by_cases hlt : j.val < b.count - 1
      · have hlt1 : j.val < b.count := by omega
        simp [hlt, hlt1]
      · simp [hlt]
  have hmono : bucketCounted ⟨b.count - 1,
      Function.update b.entries i ⟨none, (b.entries i).size, (b.entries i).last_use⟩⟩
      ≤ ∑ j, Function.update (entryCounted b) i 0 j :=
    Finset.sum_le_sum (fun j _ => hpt j)
  have hsum := sum_update_add (entryCounted b) i 0
  have h0 : entryCounted b i = (b.entries i).size := by
    simp [entryCounted, hi, hsome]
  have hbc : bucketCounted b = ∑ k, entryCounted b k := rfl
  omega

theorem bucketCounted_clear (b : SizeBucket) :
    bucketCounted (clearBucket b) = 0 := by
  unfold bucketCounted clearBucket entryCounted
  apply Finset.sum_eq_zero
  intro j _
  by_cases hj : j.val < b.count <;> simp [hj]

theorem cachedBytes_update_fn (bs : Fin 8 → SizeBucket) (j : Fin 8)
    (b' : SizeBucket) :
    (∑ k, bucketCounted (Function.update bs j b' k)) + bucketCounted (bs j) =
      (∑ k, bucketCounted (bs k)) + bucketCounted b' := by
  have hpt : ∀ k, bucketCounted (Function.update bs j b' k) =
      Function.update (fun k => bucketCounted (bs k)) j (bucketCounted b') k := by
    intro k
    by_cases hk : k = j
    · subst hk; simp
    · rw [Function.update_noteq hk, Function.update_noteq hk]
  have hcongr : (∑ k, bucketCounted (Function.update bs j b' k)) =
      ∑ k, Function.update (fun k => bucketCounted (bs k)) j (bucketCounted b') k :=
    Finset.sum_congr rfl (fun k _ => hpt k)
  have hsum := sum_update_add (fun k => bucketCounted (bs k)) j (bucketCounted b')
  omega

theorem modSub_eq (t s : Nat) (hs : s ≤ t) (ht : t < U64) :
    (t + U64 - s) % U64 = t - s := by
  have h : t + U64 - s = (t - s) + U64 := by omega
  rw [h, Nat.add_mod_right, Nat.mod_eq_of_lt (by omega)]

theorem bucketInsert_some (b : SizeBucket) (e : CacheEntry) (b' : SizeBucket)
    (hins : bucketInsert b e = some b') (he : e.ptr ≠ none) :
    bucketCounted b' = bucketCounted b + e.size ∧ b'.count ≤ 4 ∧
      1 ≤ b'.count := by
  unfold bucketInsert at hins
  split_ifs at hins with hc hnull
  · injection hins with h
    subst h
    refine ⟨bucketCounted_insert b hc e he, ?_, ?_⟩ <;> (dsimp only; omega)

theorem bucketEvict_some (b : SizeBucket) (e : CacheEntry) (size : Nat)
    (b' : SizeBucket) (oldsz : Nat)
    (hev : bucketEvict b e size = some (b', oldsz)) (he : e.ptr ≠ none)
    (hcl4 : (b.entries 0).ptr ≠ none → 1 ≤ b.count) :
    bucketCounted b' + oldsz = bucketCounted b + e.size ∧
      oldsz ≤ bucketCounted b ∧ b'.count = b.count ∧ 1 ≤ b'.count := by
  unfold bucketEvict at hev
  rcases hp : (b.entries 0).ptr with _ | v
  · rw [hp] at hev; cases hev
  · rw [hp] at hev
    split_ifs at hev with hratio
    · simp only [Option.some.injEq, Prod.mk.injEq] at hev
      obtain ⟨hb', hold⟩ := hev
      subst hb'
      subst hold
      have hsome0 : (b.entries 0).ptr ≠ none := by simp [hp]
      have h1 : 1 ≤ b.count := hcl4 hsome0
      have hz : (0 : Nat) < b.count := by omega
      have hmain := bucketCounted_evict b h1 hsome0 e he
      have h0 : entryCounted b 0 = (b.entries 0).size := by
        simp [entryCounted, hsome0, hz]
      have hle := entry_le_bucketCounted b 0
      rw [h0] at hle
      refine ⟨hmain, hle, rfl, ?_⟩
      dsimp only
      omega

theorem getScan_some (b : SizeBucket) (size : Nat) (i : Fin 4)
    (hs : getScan b size = some i) :
    i.val < b.count ∧ (b.entries i).ptr ≠ none := by
  have hfind := List.find?_some hs
  simp only [Bool.and_eq_true, decide_eq_true_eq,
    Option.isSome_iff_ne_none] at hfind
  exact ⟨hfind.1.1.1, hfind.1.1.2⟩

theorem uMAX_lt : MAX_CACHE_SIZE < U64 := by norm_num [MAX_CACHE_SIZE, U64]

theorem cache_block_reject (st : LBCache) (ptr size now : Nat)
    (hover : st.total_cached + size > MAX_CACHE_SIZE) :
    cache_block st ptr size now = (false, st) := by
  unfold cache_block
  split_ifs with h1 hb
  · rfl
  · rfl
  · rfl

theorem wf_after_update (st : LBCache) (j : Fin 8) (b' : SizeBucket) (T : Nat)
    (h1 : cachedBytes st ≤ st.total_cached)
    (hc4 : ∀ k, (st.buckets k).count ≤ 4)
    (he0 : ∀ k, ((st.buckets k).entries 0).ptr ≠ none → 1 ≤ (st.buckets k).count)
    (hbc : bucketCounted b' + st.total_cached ≤ bucketCounted (st.buckets j) + T)
    (hTmax : T ≤ MAX_CACHE_SIZE)
    (hcnt' : b'.count ≤ 4)
    (hpos' : (b'.entries 0).ptr ≠ none → 1 ≤ b'.count) :
    WF ⟨Function.update st.buckets j b', T⟩ := by
  refine ⟨?_, hTmax, ?_, ?_⟩
  · have hub := cachedBytes_update_fn st.buckets j b'
    have hccb : cachedBytes ⟨Function.update st.buckets j b', T⟩ =
        ∑ k, bucketCounted (Function.update st.buckets j b' k) := rfl
    have hcbst : cachedBytes st = ∑ k, bucketCounted (st.buckets k) := rfl
    have hble := bucket_le_cachedBytes st j
    show cachedBytes ⟨Function.update st.buckets j b', T⟩ ≤ T
    omega
  · intro k
    show (Function.update st.buckets j b' k).count ≤ 4
    by_cases hk : k = j
    · subst hk; rw [Function.update_same]; exact hcnt'
    · rw [Function.update_noteq hk]; exact hc4 k
  · intro k
    show ((Function.update st.buckets j b' k).entries 0).ptr ≠ none →
      1 ≤ (Function.update st.buckets j b' k).count
    by_cases hk : k = j
    · subst hk; rw [Function.update_same]; exact hpos'
    · rw [Function.update_noteq hk]; exact he0 k

theorem cache_block_preserves (st : LBCache) (ptr size now : Nat)
    (hWF : WF st) : WF (cache_block st ptr size now).2 := by
  obtain ⟨hcb, hmax, hcnt, he0⟩ := hWF
  unfold cache_block
  split_ifs with h1 hb hover
  · exact ⟨hcb, hmax, hcnt, he0⟩
  · exact ⟨hcb, hmax, hcnt, he0⟩
  · rcases hins : bucketInsert (st.buckets ⟨get_bucket_index size, hb⟩)
        ⟨some ptr, size, now⟩ with _ | b'
    · rcases hev : bucketEvict (st.buckets ⟨get_bucket_index size, hb⟩)
          ⟨some ptr, size, now⟩ size with _ | ⟨b', oldsz⟩
      · exact ⟨hcb, hmax, hcnt, he0⟩
      · obtain ⟨hsum, hople, hcounteq, hcpos⟩ :=
          bucketEvict_some _ _ _ _ _ hev (by simp)
            (he0 ⟨get_bucket_index size, hb⟩)
        have hes : ({ ptr := some ptr, size := size, last_use := now } :
            CacheEntry).size = size := rfl
        have hble := bucket_le_cachedBytes st ⟨get_bucket_index size, hb⟩
        have hoole : oldsz ≤ st.total_cached := by omega
        have hlt : st.total_cached < U64 := lt_of_le_of_lt hmax uMAX_lt
        have hmod1 : (st.total_cached + U64 - oldsz) % U64 =
            st.total_cached - oldsz := modSub_eq _ _ hoole hlt
        have hMU := uMAX_lt
        have hmod2 : (st.total_cached - oldsz + size) % U64 =
            st.total_cached - oldsz + size := Nat.mod_eq_of_lt (by omega)
        have hq : ((st.total_cached + U64 - oldsz) % U64 + size) % U64 =
            st.total_cached - oldsz + size := by rw [hmod1]; exact hmod2
        have hc4 := hcnt (⟨get_bucket_index size, hb⟩ : Fin 8)
        refine wf_after_update st ⟨get_bucket_index size, hb⟩ b'
          (((st.total_cached + U64 - oldsz) % U64 + size) % U64)
          hcb hcnt he0 ?_ ?_ ?_ ?_
        · rw [hq]; omega
        · rw [hq]; omega
        · omega
        · exact fun _ => hcpos
    · obtain ⟨hbc', hcle, hcpos⟩ := bucketInsert_some _ _ _ hins (by simp)
      have hes : ({ ptr := some ptr, size := size, last_use := now } :
          CacheEntry).size = size := rfl
      have hMU := uMAX_lt
      have hmod : (st.total_cached + size) % U64 = st.total_cached + size :=
        Nat.mod_eq_of_lt (by omega)
      refine wf_after_update st ⟨get_bucket_index size, hb⟩ b'
        ((st.total_cached + size) % U64) hcb hcnt he0 ?_ ?_ ?_ ?_
      · rw [hmod]; omega
      · rw [hmod]; omega
      · exact hcle
      · exact fun _ => hcpos
  · exact ⟨hcb, hmax, hcnt, he0⟩

theorem get_cached_block_preserves (st : LBCache) (size : Nat) (hWF : WF st) :
    WF (get_cached_block st size).2 := by
  obtain ⟨hcb, hmax, hcnt, he0⟩ := hWF
  unfold get_cached_block
  split_ifs with h1 hb
  · exact ⟨hcb, hmax, hcnt, he0⟩
  · rcases hscan : getScan (st.buckets ⟨get_bucket_index size, hb⟩) size
        with _ | i
    · exact ⟨hcb, hmax, hcnt, he0⟩
    · obtain ⟨hi, hsome⟩ := getScan_some _ _ _ hscan
      have hget := bucketCounted_get (st.buckets ⟨get_bucket_index size, hb⟩)
        i hi hsome
      have h0 : entryCounted (st.buckets ⟨get_bucket_index size, hb⟩) i =
          ((st.buckets ⟨get_bucket_index size, hb⟩).entries i).size := by
        simp [entryCounted, hi, hsome]
      have hele := entry_le_bucketCounted
        (st.buckets ⟨get_bucket_index size, hb⟩) i
      have hble := bucket_le_cachedBytes st ⟨get_bucket_index size, hb⟩
      have hlt : st.total_cached < U64 := lt_of_le_of_lt hmax uMAX_lt
      have hesle : ((st.buckets ⟨get_bucket_index size, hb⟩).entries i).size ≤
          st.total_cached := by omega
      have hmod : (st.total_cached + U64 -
            ((st.buckets ⟨get_bucket_index size, hb⟩).entries i).size) % U64 =
          st.total_cached -
            ((st.buckets ⟨get_bucket_index size, hb⟩).entries i).size :=
        modSub_eq _ _ hesle hlt
      have hc4 := hcnt (⟨get_bucket_index size, hb⟩ : Fin 8)
      refine wf_after_update st ⟨get_bucket_index size, hb⟩
        ⟨(st.buckets ⟨get_bucket_index size, hb⟩).count - 1,
         Function.update (st.buckets ⟨get_bucket_index size, hb⟩).entries i
           ⟨none, ((st.buckets ⟨get_bucket_index size, hb⟩).entries i).size,
            ((st.buckets ⟨get_bucket_index size, hb⟩).entries i).last_use⟩⟩
        ((st.total_cached + U64 -
          ((st.buckets ⟨get_bucket_index size, hb⟩).entries i).size) % U64)
        hcb hcnt he0 ?_ ?_ ?_ ?_
      · rw [hmod]; omega
      · rw [hmod]; omega
      · show (st.buckets ⟨get_bucket_index size, hb⟩).count - 1 ≤ 4
        omega
      · show ((Function.update
            (st.buckets ⟨get_bucket_index size, hb⟩).entries i
            ⟨none, ((st.buckets ⟨get_bucket_index size, hb⟩).entries i).size,
             ((st.buckets ⟨get_bucket_index size, hb⟩).entries i).last_use⟩) 0).ptr
            ≠ none →
          1 ≤ (st.buckets ⟨get_bucket_index size, hb⟩).count - 1
        intro hp
        by_cases hI : i = (0 : Fin 4)
        · subst hI
          rw [Function.update_same] at hp
          exact absurd rfl hp
        · have hne : (0 : Fin 4) ≠ i := fun h => hI h.symm
          have hv : i.val ≠ 0 := fun h => hI (Fin.ext h)
          omega
  · exact ⟨hcb, hmax, hcnt, he0⟩

theorem clearCache_preserves (st : LBCache) (hWF : WF st) :
    WF (clearCache st) := by
  obtain ⟨hcb, hmax, hcnt, he0⟩ := hWF
  refine ⟨?_, ?_, ?_, ?_⟩
  · have h0 : cachedBytes (clearCache st) = 0 := by
      unfold cachedBytes clearCache
      dsimp only
      exact Finset.sum_eq_zero (fun j _ => bucketCounted_clear _)
    rw [h0]
    exact Nat.zero_le _
  · exact Nat.zero_le _
  · intro j
    exact Nat.zero_le 4
  · intro j hp
    by_cases hc : (0 : Nat) < (st.buckets j).count
    · simp [clearCache, clearBucket, hc] at hp
    · have hp' : ((st.buckets j).entries 0).ptr ≠ none := by
        simpa [clearCache, clearBucket, hc] using hp
      exact absurd (he0 j hp') (by omega)

/-- C10: the large-block cache's byte counter never exceeds 64 MiB.
`cache_block` rejects (and leaves the state untouched) whenever the current
total plus the incoming size would exceed `MAX_CACHE_SIZE`; and each of
admission, eviction-replacement, successful get and clear preserves the
well-formedness invariant `WF` — in particular the counter stays at or
below 64 MiB (`WF`'s second component).  `WF` additionally keeps the
counter at or above the accounted bytes of the scanned entries, which is
what makes every `fetch_sub` wrap-free. -/
theorem c10_large_cache_bound (st : LBCache) (ptr size now req : Nat)
    (hWF : WF st) :
    (st.total_cached + size > MAX_CACHE_SIZE →
      cache_block st ptr size now = (false, st)) ∧
    WF (cache_block st ptr size now).2 ∧
    (cache_block st ptr size now).2.total_cached ≤ MAX_CACHE_SIZE ∧
    WF (get_cached_block st req).2 ∧
    (get_cached_block st req).2.total_cached ≤ MAX_CACHE_SIZE ∧
    WF (clearCache st) ∧
    (clearCache st).total_cached ≤ MAX_CACHE_SIZE :=
  ⟨fun hover => cache_block_reject st ptr size now hover,
   cache_block_preserves st ptr size now hWF,
   (cache_block_preserves st ptr size now hWF).2.1,
   get_cached_block_preserves st req hWF,
   (get_cached_block_preserves st req hWF).2.1,
   clearCache_preserves st hWF,
   (clearCache_preserves st hWF).2.1⟩

/-- Witness for C10's theorem: caching a 4 KiB block into the empty cache
preserves the invariant. -/
theorem c10_large_cache_bound_witness :
    WF (cache_block emptyCache 8192 4096 0).2 :=
  (c10_large_cache_bound emptyCache 8192 4096 0 4096 (by decide)).2.1
